import Mathlib

/-!
Shallow embedding of `packages/dotnet/src/lib/core/dotnet.client.ts`
(`DotNetClient` and its helpers) together with theorems checking the
natural-language specification against it.

Strings are modelled by Lean `String` / `List Char`; the JavaScript
regular expressions used by the source are implemented character by
character with the backtracking semantics of the JS engine; process
execution is modelled by pure functions taking the would-be process
result as an argument and returning the dispatched argument vector,
the emitted log lines and the outcome (`Except` for thrown errors).
-/

namespace DotnetClient

/-- Character class of the JavaScript whitespace escape `\s`
(WhiteSpace and LineTerminator productions of ECMAScript). -/
def jsWhitespaceChar (c : Char) : Bool :=
  c == ' ' || c == '\t' || c == '\n' || c == '\r' ||
  c == Char.ofNat 0x0b || c == Char.ofNat 0x0c ||
  c == Char.ofNat 0xa0 || c == Char.ofNat 0xfeff ||
  c == Char.ofNat 0x1680 ||
  (decide (0x2000 ≤ c.toNat) && decide (c.toNat ≤ 0x200a)) ||
  c == Char.ofNat 0x2028 || c == Char.ofNat 0x2029 ||
  c == Char.ofNat 0x202f || c == Char.ofNat 0x205f || c == Char.ofNat 0x3000

/-- Character class of the JavaScript escape `\S`. -/
def jsNonSpace (c : Char) : Bool := !(jsWhitespaceChar c)

/-- Line terminators of ECMAScript, the characters the JS regex `.` does not match. -/
def jsLineTerminator (c : Char) : Bool :=
  c == '\n' || c == '\r' || c == Char.ofNat 0x2028 || c == Char.ofNat 0x2029

/-- Character class of the JavaScript word escape `\w`: ASCII letters, digits, underscore. -/
def jsWordChar (c : Char) : Bool := c.isAlpha || c.isDigit || c == '_'

/-! Tokenizer for the extra-parameter string.
Source: `const EXTRA_PARAMS_REGEX = /\S*".+?"|\S+/g` used via `extraParameters.match(EXTRA_PARAMS_REGEX)`. -/

/-- Offset of the first double quote in the list, scanning only across
characters the JS regex `.` matches; `none` when a line terminator or the
end of the list comes first.  Models the search for the closing quote of
the lazy `.+?"` suffix. -/
def findClose : List Char → Option Nat
  | [] => none
  | c :: rest =>
    if c = '"' then some 0
    else if jsLineTerminator c then none
    else (findClose rest).map (· + 1)

/-- Number of characters consumed by the regex fragment `.+?"` at the head
of the list: at least one `.` character, then the first closing quote
(lazy quantifier). -/
def lazyDotQuote : List Char → Option Nat
  | [] => none
  | c :: rest =>
    if jsLineTerminator c then none
    else (findClose rest).map (· + 2)

/-- Match of the first alternative `\S*".+?"` with exactly `k` characters
consumed by the star: the character at position `k` must be the opening
quote, then `.+?"` must match.  Returns the total match length. -/
def alt1At (cs : List Char) (k : Nat) : Option Nat :=
  match cs.drop k with
  | '"' :: after => (lazyDotQuote after).map (fun m => k + 1 + m)
  | _ => none

/-- Backtracking over the greedy star `\S*`: try `k` characters first,
then `k - 1`, down to `0`. -/
def tryAlt1Aux (cs : List Char) : Nat → Option Nat
  | 0 => alt1At cs 0
  | k + 1 => (alt1At cs (k + 1)).orElse fun _ => tryAlt1Aux cs k

/-- Match of the alternative `\S*".+?"` at the head of the list,
with JS greedy/lazy backtracking semantics. -/
def tryAlt1 (cs : List Char) : Option Nat :=
  tryAlt1Aux cs (cs.takeWhile jsNonSpace).length

/-- Match of the alternative `\S+` at the head of the list: the maximal
run of non-space characters, when it is non-empty. -/
def tryAlt2 (cs : List Char) : Option Nat :=
  if (cs.takeWhile jsNonSpace).length = 0 then none
  else some (cs.takeWhile jsNonSpace).length

/-- Match of the whole alternation `\S*".+?"|\S+` at the head of the list:
the first alternative is preferred, as in JS. -/
def tryMatch (cs : List Char) : Option Nat :=
  (tryAlt1 cs).orElse fun _ => tryAlt2 cs

/-- Global scan of a JS regex with the `g` flag: repeatedly match at the
current position, otherwise advance one character.  The fuel argument is
the length of the list; every step consumes at least one character, so
the fuel never runs out on the initial call. -/
def scanAux : Nat → List Char → List (List Char)
  | 0, _ => []
  | _ + 1, [] => []
  | fuel + 1, c :: rest =>
    match tryMatch (c :: rest) with
    | some n => (c :: rest).take n :: scanAux fuel ((c :: rest).drop n)
    | none => scanAux fuel rest

/-- All matches of `EXTRA_PARAMS_REGEX` in a character list, in order. -/
def scanTokens (cs : List Char) : List (List Char) := scanAux cs.length cs

/-- Model of `s.match(EXTRA_PARAMS_REGEX)`: `none` is JS `null`
(no match anywhere), otherwise the array of matched tokens. -/
def jsMatch (s : String) : Option (List String) :=
  match scanTokens s.data with
  | [] => none
  | ts => some (ts.map fun t => String.mk t)

/-! Environment-variable substitution.
Source: `param.replace(/\$(\w+)/, (_, varName) => process.env[varName] ?? '')`. -/

/-- Model of `process.env`: a partial map from variable name to value. -/
abbrev EnvMap := String → Option String

/-- Maximal prefix of word characters (greedy `\w+`) and the remaining suffix. -/
def takeWordRun : List Char → List Char × List Char
  | [] => ([], [])
  | c :: rest =>
    if jsWordChar c then
      let p := takeWordRun rest
      (c :: p.1, p.2)
    else ([], c :: rest)

/-- Replacement of the first match of `/\$(\w+)/`: a dollar sign followed
by at least one word character is replaced by the value of the named
environment variable (empty string when unset); everything after the
match, and a list with no match, are left unchanged. -/
def replaceFirstEnvVar (env : EnvMap) : List Char → List Char
  | [] => []
  | c :: rest =>
    if c = '$' then
      match takeWordRun rest with
      | ([], _) => c :: replaceFirstEnvVar env rest
      | (w, t) => ((env (String.mk w)).getD "").data ++ t
    else c :: replaceFirstEnvVar env rest

/-- Substitution applied to one argument token. -/
def envSubstToken (env : EnvMap) (s : String) : String :=
  String.mk (replaceFirstEnvVar env s.data)

/-- Substitution applied to a whole argument list, as in
`params.map((param) => param.replace(...))`. -/
def substParams (env : EnvMap) (params : List String) : List String :=
  params.map (envSubstToken env)

/-- Presence of a `/\$(\w+)/` match somewhere in the list: a dollar sign
immediately followed by a word character. -/
def hasEnvPattern : List Char → Bool
  | [] => false
  | c :: rest =>
    (c == '$' && (match rest with | r :: _ => jsWordChar r | [] => false))
    || hasEnvPattern rest

/-! Semantic versions.  The `semver` package is an external collaborator
(spec §1 excludes the version-comparison utility from the core); release
versions are modelled as major/minor/patch triples with lexicographic
comparison, which is the `semver` order on release versions. -/

/-- Release semantic version. -/
structure SemVer where
  major : Nat
  minor : Nat
  patch : Nat
  deriving DecidableEq, Repr

/-- Model of `semver.lt` on release versions: lexicographic strict order. -/
def semverLt (a b : SemVer) : Bool :=
  decide (a.major < b.major) ||
  (decide (a.major = b.major) &&
    (decide (a.minor < b.minor) ||
      (decide (a.minor = b.minor) && decide (a.patch < b.patch))))

/-- Model of `semver.gte` on release versions. -/
def semverGte (a b : SemVer) : Bool := !(semverLt a b)

/-! Executors.  Stdio, the child process and the log stream are modelled
by pure data: each executor takes the would-be process result and
returns the dispatched argument vector, the log lines printed before
dispatch, and the source's return value or thrown error. -/

/-- Result of the external process: exit status and captured streams. -/
structure ProcResult where
  status : Int
  stdout : String
  stderr : String
  deriving DecidableEq, Repr

/-- Errors thrown by the client: the `TypeError` from spreading a `null`
regex match, and the `Error` built from a non-zero exit status (spec name
`ExecutionError`), carrying the status and, in captured mode, the stderr
contents interpolated into its message. -/
inductive JsError
  | typeError
  | executionError (status : Int) (stderr : Option String)
  deriving DecidableEq, Repr

/-- Handle returned by the non-blocking `spawn` call. -/
structure ChildProcess where
  command : String
  args : List String
  deriving DecidableEq, Repr

/-- Observable side of a dispatch: the argument vector handed to the
process and the log lines emitted before it. -/
structure Dispatch where
  args : List String
  logs : List String
  deriving DecidableEq, Repr

/-- Log line `Executing Command: ${command} "${params.join('" "')}"`. -/
def commandLogLine (command : String) (params : List String) : String :=
  "Executing Command: " ++ command ++ " \"" ++ String.intercalate "\" \"" params ++ "\""

/-- Model of `DotNetClient.logAndExecute`: substitute environment
variables, log the full command, run blocking with inherited stdio, throw
on non-zero exit status, return nothing on success. -/
def logAndExecute (command : String) (env : EnvMap) (params : List String)
    (res : ProcResult) : Dispatch × Except JsError Unit :=
  let params := substParams env params
  (⟨params, [commandLogLine command params]⟩,
    if res.status ≠ 0 then Except.error (JsError.executionError res.status none)
    else Except.ok ())

/-- Model of `DotNetClient.spawnAndGetOutput`: substitute environment
variables, run blocking with piped stdio, throw with status and stderr on
non-zero exit status, return the captured stdout on success.  No log line
is emitted by this mode. -/
def spawnAndGetOutput (env : EnvMap) (params : List String)
    (res : ProcResult) : Dispatch × Except JsError String :=
  let params := substParams env params
  (⟨params, []⟩,
    if res.status ≠ 0 then
      Except.error (JsError.executionError res.status (some res.stderr))
    else Except.ok res.stdout)

/-- Model of `DotNetClient.logAndSpawn`: log the full command and start
the process asynchronously, returning the handle at once.  The argument
list is dispatched as given: this mode performs no environment-variable
substitution, and it never throws. -/
def logAndSpawn (command : String) (env : EnvMap) (params : List String) :
    Dispatch × ChildProcess :=
  (⟨params, [commandLogLine command params]⟩, ⟨command, params⟩)

/-! Options objects and the option mapper.
`swapKeysUsingMap` and `getSpawnParameterArray` live in the
`@nx-dotnet/utils` package, outside this file; they are modelled from
spec §4.1.  An options object is an insertion-ordered association list
from option name to string or boolean value (a missing key is the JS
`undefined`). -/

/-- Value of an option: a JS boolean or string. -/
inductive OptVal
  | bool (b : Bool)
  | str (s : String)
  deriving DecidableEq, Repr

/-- Insertion-ordered options object. -/
abbrev OptionsObj := List (String × OptVal)

/-- Modelled from the spec: `swapKeysUsingMap` from `@nx-dotnet/utils` is
not under the sources; per spec §4.1 it produces a new object where every
key present in the key map is renamed to its mapped flag name, keys absent
from the map pass through unchanged, and the input is not mutated. -/
def swapKeysUsingMap (opts : OptionsObj) (keyMap : List (String × String)) :
    OptionsObj :=
  opts.map fun kv => ((keyMap.lookup kv.1).getD kv.1, kv.2)

/-- Modelled from the spec: `getSpawnParameterArray` from
`@nx-dotnet/utils` is not under the sources; per spec §4.1 it flattens an
options object into command-line tokens: boolean `true` emits the flag
token alone, boolean `false` emits nothing, a string value emits the flag
token followed by the value as a separate token, and a missing key emits
nothing. -/
def getSpawnParameterArray (opts : OptionsObj) : List String :=
  (opts.map fun kv =>
    match kv.2 with
    | OptVal.bool true => [kv.1]
    | OptVal.bool false => []
    | OptVal.str s => [kv.1, s]).flatten

/-- Modelled from the spec: the static key map for `build`; its entries
are not given under the sources, so no renames are assumed.  No claim
depends on its contents. -/
def buildKeyMap : List (String × String) := []

/-- Modelled from the spec: the static key map for `run`; entries
unspecified, no renames assumed.  No claim depends on its contents. -/
def runKeyMap : List (String × String) := []

/-- Modelled from the spec: the static key map for `test`; entries
unspecified, no renames assumed.  No claim depends on its contents. -/
def testKeyMap : List (String × String) := []

/-- Modelled from the spec: the static key map for `publish`; entries
unspecified, no renames assumed.  No claim depends on its contents. -/
def publishKeyMap : List (String × String) := []

/-- Modelled from the spec: the static key map for `format`; entries
unspecified, no renames assumed.  No claim depends on its contents. -/
def formatKeyMap : List (String × String) := []

/-- Tokens contributed by an optional parameters object after key
swapping, the `if (parameters) { ... push(...getSpawnParameterArray) }`
pattern shared by the commands. -/
def mappedOptionTokens (parameters : Option OptionsObj)
    (keyMap : List (String × String)) : List String :=
  match parameters with
  | some o => getSpawnParameterArray (swapKeysUsingMap o keyMap)
  | none => []

/-- Truthiness of a JS optional string: present and non-empty. -/
def truthyStr : Option String → Bool
  | none => false
  | some s => decide (s ≠ "")

/-- Model of the `if (extraParameters) { const matches =
extraParameters.match(EXTRA_PARAMS_REGEX); params.push(...(matches as
string[])) }` pattern: a falsy (absent or empty) string contributes no
tokens, a match contributes its tokens, and spreading a `null` match
throws a `TypeError`. -/
def spreadMatches : Option String → Except JsError (List String)
  | none => Except.ok []
  | some s =>
    if s = "" then Except.ok []
    else
      match jsMatch s with
      | none => Except.error JsError.typeError
      | some ts => Except.ok ts

/-! Command assemblers, one per operation the claims mention.  Each
returns the argument list handed to the executor, or the error thrown
while assembling it. -/

/-- Argument list of `DotNetClient.listInstalledTemplates` before
dispatch to `spawnAndGetOutput`. -/
def listInstalledTemplatesParams (version : SemVer)
    (search language : Option String) : List String :=
  ["new"]
  ++ (if semverLt version ⟨6, 0, 100⟩ && truthyStr search then
        [search.getD ""]
      else [])
  ++ (if semverGte version ⟨7, 0, 100⟩ then ["list"] else ["--list"])
  ++ (if semverGte version ⟨6, 0, 100⟩ && truthyStr search then
        [search.getD ""]
      else [])
  ++ (if truthyStr language then ["--language", language.getD ""] else [])

/-- Argument list of `DotNetClient.build`. -/
def buildParams (project : String) (parameters : Option OptionsObj)
    (extra : Option String) : Except JsError (List String) :=
  match spreadMatches extra with
  | Except.error e => Except.error e
  | Except.ok toks =>
    Except.ok (["build", project] ++ mappedOptionTokens parameters buildKeyMap ++ toks)

/-- Argument list of `DotNetClient.run`.  The run command never takes
extra parameters and always dispatches through `logAndSpawn`. -/
def runParams (project : String) (watch : Bool)
    (parameters : Option OptionsObj) : List String :=
  (if watch then ["watch", "--project", project, "run"]
   else ["run", "--project", project])
  ++ mappedOptionTokens parameters runKeyMap

/-- Argument list of `DotNetClient.test`; dispatched through
`logAndExecute` without the watch flag and `logAndSpawn` with it. -/
def testParams (project : String) (watch : Bool)
    (parameters : Option OptionsObj) (extra : Option String) :
    Except JsError (List String) :=
  match spreadMatches extra with
  | Except.error e => Except.error e
  | Except.ok toks =>
    Except.ok ((if watch then ["watch", "--project", project, "test"]
                else ["test", project])
      ++ mappedOptionTokens parameters testKeyMap ++ toks)

/-- Argument list of `DotNetClient.publish`: the project path is wrapped
in double quotes, then mapped options, then the raw
`-p:PublishProfile=<name>` token when a profile is given (truthy), then
the tokenized extra parameters. -/
def publishParams (project : String) (parameters : Option OptionsObj)
    (publishProfile : Option String) (extra : Option String) :
    Except JsError (List String) :=
  match spreadMatches extra with
  | Except.error e => Except.error e
  | Except.ok toks =>
    Except.ok (["publish", "\"" ++ project ++ "\""]
      ++ mappedOptionTokens parameters publishKeyMap
      ++ (if truthyStr publishProfile then
            ["-p:PublishProfile=" ++ publishProfile.getD ""]
          else [])
      ++ toks)

/-- Argument list of `DotNetClient.runTool`; its parameters object is
flattened without key swapping. -/
def runToolParams (tool : String) (positional : Option (List String))
    (parameters : Option OptionsObj) (extra : Option String) :
    Except JsError (List String) :=
  match spreadMatches extra with
  | Except.error e => Except.error e
  | Except.ok toks =>
    Except.ok (["tool", "run", tool]
      ++ (match positional with | some ps => ps | none => [])
      ++ (match parameters with
          | some o => getSpawnParameterArray o
          | none => [])
      ++ toks)

/-- Model of the whole `DotNetClient.build` call: assemble the arguments,
then dispatch through `logAndExecute`.  An assembly error means no
process is invoked. -/
def build (command : String) (env : EnvMap) (res : ProcResult)
    (project : String) (parameters : Option OptionsObj)
    (extra : Option String) :
    Except JsError (Dispatch × Except JsError Unit) :=
  match buildParams project parameters extra with
  | Except.error e => Except.error e
  | Except.ok ps => Except.ok (logAndExecute command env ps res)

/-! The format command.  `dotnetFormatOptions` is modelled with its three
version-sensitive keys as explicit fields (each a JS boolean or string,
or absent) and the remaining keys as an ordered association list. -/

/-- Options object of `DotNetClient.format`. -/
structure dotnetFormatOptions where
  fixWhitespace : Option OptVal := none
  fixStyle : Option OptVal := none
  fixAnalyzers : Option OptVal := none
  rest : OptionsObj := []
  deriving DecidableEq, Repr

/-- Association-list view of a format options object, the three
version-sensitive keys first (insertion order of the fields). -/
def formatToObj (p : dotnetFormatOptions) : OptionsObj :=
  (match p.fixWhitespace with
   | some v => [("fixWhitespace", v)]
   | none => [])
  ++ (match p.fixStyle with
      | some v => [("fixStyle", v)]
      | none => [])
  ++ (match p.fixAnalyzers with
      | some v => [("fixAnalyzers", v)]
      | none => [])
  ++ p.rest

/-- Assignment `subcommandParameterObject.severity = v` performed when
the saved legacy flag value is a string: the new key is appended at the
end of the copied object. -/
def severityApplied (obj : OptionsObj) (v : Option OptVal) : OptionsObj :=
  match v with
  | some (OptVal.str s) => obj ++ [("severity", OptVal.str s)]
  | _ => obj

/-- Outcome of a `format` call: the argument lists dispatched through
`logAndExecute`, in order (each assumed to exit successfully), and the
final state of the caller-supplied parameters object. -/
structure FormatResult where
  invocations : List (List String)
  callerParams : Option dotnetFormatOptions
  deriving DecidableEq, Repr

/-- Model of `DotNetClient.format`.  On SDK major version at least 6 with
at least one of the three legacy flags defined, the three flag values are
saved, the three keys are deleted from the caller-supplied object, and
one sub-invocation per flag whose saved value is not the boolean `false`
is dispatched (`whitespace`, `style`, `analyzers`), each carrying the
remaining shared options, plus a `severity` entry for `style`/`analyzers`
when the saved value is a string.  Otherwise a single unified invocation
is dispatched and the caller-supplied object is not mutated. -/
def format (version : SemVer) (project : String)
    (parameters : Option dotnetFormatOptions) (forceToolUsage : Bool) :
    FormatResult :=
  let params := if forceToolUsage then ["tool", "run", "dotnet-format", "--"]
                else ["format"]
  match parameters with
  | some p =>
    if decide (6 ≤ version.major) &&
        (p.fixWhitespace.isSome || p.fixStyle.isSome || p.fixAnalyzers.isSome) then
      let stripped : dotnetFormatOptions :=
        { p with fixWhitespace := none, fixStyle := none, fixAnalyzers := none }
      let wInvs :=
        if p.fixWhitespace = some (OptVal.bool false) then []
        else [params ++ ["whitespace", project]
          ++ getSpawnParameterArray (formatToObj stripped)]
      let sInvs :=
        if p.fixStyle = some (OptVal.bool false) then []
        else [params ++ ["style", project]
          ++ getSpawnParameterArray
              (severityApplied (formatToObj stripped) p.fixStyle)]
      let aInvs :=
        if p.fixAnalyzers = some (OptVal.bool false) then []
        else [params ++ ["analyzers", project]
          ++ getSpawnParameterArray
              (severityApplied (formatToObj stripped) p.fixAnalyzers)]
      { invocations := wInvs ++ sInvs ++ aInvs, callerParams := some stripped }
    else
      { invocations := [params ++ [project]
          ++ getSpawnParameterArray (swapKeysUsingMap (formatToObj p) formatKeyMap)],
        callerParams := some p }
  | none =>
    { invocations := [params ++ [project]], callerParams := none }

/-! Helper lemmas shared by the claim theorems. -/

/-- Concrete environment used by several concrete instances below:
only the variable `HOME` is set. -/
def envHome : EnvMap := fun n => if n = "HOME" then some "/home/user" else none

/-- Semver comparison helper: a release version below `6.0.100` is also
below `7.0.100`. -/
theorem semverLt_6_imp_7 (v : SemVer) (h : semverLt v ⟨6, 0, 100⟩ = true) :
    semverLt v ⟨7, 0, 100⟩ = true := by
  simp only [semverLt, Bool.or_eq_true, Bool.and_eq_true, decide_eq_true_eq] at h ⊢
  omega

/-- A list with no `$NAME` pattern is unchanged by the first-match
replacement. -/
theorem replaceFirstEnvVar_eq_of_no_pattern (env : EnvMap) :
    ∀ cs : List Char, hasEnvPattern cs = false → replaceFirstEnvVar env cs = cs := by
  intro cs
  induction cs with
  | nil => intro _; rfl
  | cons c rest ih =>
    intro h
    simp only [hasEnvPattern, Bool.or_eq_false_iff, Bool.and_eq_false_iff,
      beq_eq_false_iff_ne, ne_eq] at h
    obtain ⟨h1, h2⟩ := h
    by_cases hc : c = '$'
    · subst hc
      have hw : takeWordRun rest = ([], rest) := by
        cases rest with
        | nil => rfl
        | cons r rs =>
          have hr : jsWordChar r = false := by
            rcases h1 with h1 | h1
            · exact absurd rfl h1
            · exact h1
          simp [takeWordRun, hr]
      simp only [replaceFirstEnvVar, if_pos rfl, hw]
      exact congrArg (List.cons _) (ih h2)
    · simp only [replaceFirstEnvVar, if_neg hc]
      exact congrArg (List.cons _) (ih h2)

/-- The regex alternation of `EXTRA_PARAMS_REGEX` has no match at a
position whose first character is whitespace. -/
theorem tryMatch_eq_none_of_ws (c : Char) (rest : List Char)
    (hc : jsWhitespaceChar c = true) : tryMatch (c :: rest) = none := by
  have hns : jsNonSpace c = false := by simp [jsNonSpace, hc]
  have hq : ¬ (c = '"') := by
    intro h
    subst h
    exact absurd hc (by decide)
  have htw : (c :: rest).takeWhile jsNonSpace = [] := by
    simp [List.takeWhile_cons, hns]
  have halt1At : alt1At (c :: rest) 0 = none := by
    unfold alt1At
    rw [List.drop_zero]
    split
    · rename_i after heq
      injection heq with h1 _
      exact absurd h1 hq
    · rfl
  have halt1 : tryAlt1 (c :: rest) = none := by
    unfold tryAlt1
    rw [htw]
    exact halt1At
  have halt2 : tryAlt2 (c :: rest) = none := by
    unfold tryAlt2
    rw [htw]
    rfl
  unfold tryMatch
  rw [halt1, halt2]
  rfl

/-- The global scan over a whitespace-only list yields no token. -/
theorem scanAux_eq_nil_of_ws : ∀ (fuel : Nat) (cs : List Char),
    (∀ c ∈ cs, jsWhitespaceChar c = true) → scanAux fuel cs = [] := by
  intro fuel
  induction fuel with
  | zero => intro cs _; rfl
  | succ n ih =>
    intro cs h
    cases cs with
    | nil => rfl
    | cons c rest =>
      have hc : jsWhitespaceChar c = true := h c (List.mem_cons_self c rest)
      have hm := tryMatch_eq_none_of_ws c rest hc
      have heq : scanAux (n + 1) (c :: rest)
          = (match tryMatch (c :: rest) with
             | some m => (c :: rest).take m :: scanAux n ((c :: rest).drop m)
             | none => scanAux n rest) := rfl
      rw [heq, hm]
      exact ih rest fun x hx => h x (List.mem_cons_of_mem c hx)

/-- On a whitespace-only string, `s.match(EXTRA_PARAMS_REGEX)` is `null`. -/
theorem jsMatch_eq_none_of_ws (s : String)
    (h : ∀ c ∈ s.data, jsWhitespaceChar c = true) : jsMatch s = none := by
  unfold jsMatch scanTokens
  rw [scanAux_eq_nil_of_ws s.data.length s.data h]

/-! Claim theorems. -/

/-- C7: tokenizing the extra-parameter string `--flag="a b c" --other=x`
through `EXTRA_PARAMS_REGEX` yields exactly the two tokens
`--flag="a b c"` and `--other=x`. -/
theorem tokenize_quoted_example :
    jsMatch "--flag=\"a b c\" --other=x"
      = some ["--flag=\"a b c\"", "--other=x"] := by decide

/-- C2: the template-listing argument list branches three ways on the SDK
semantic version: below `6.0.100` the search term precedes `--list`;
from `6.0.100` up to (excluding) `7.0.100` the token is `--list` and the
search term follows it; from `7.0.100` on the token is the positional
word `list` followed by the search term. -/
theorem listTemplates_version_branches (v : SemVer) (s : String) (hs : s ≠ "") :
    (semverLt v ⟨6, 0, 100⟩ = true →
      listInstalledTemplatesParams v (some s) none = ["new", s, "--list"]) ∧
    (semverGte v ⟨6, 0, 100⟩ = true → semverLt v ⟨7, 0, 100⟩ = true →
      listInstalledTemplatesParams v (some s) none = ["new", "--list", s]) ∧
    (semverGte v ⟨7, 0, 100⟩ = true →
      listInstalledTemplatesParams v (some s) none = ["new", "list", s]) := by
  refine ⟨fun h6 => ?_, fun h6 h7 => ?_, fun h7 => ?_⟩
  · have h7 := semverLt_6_imp_7 v h6
    simp [listInstalledTemplatesParams, truthyStr, semverGte, h6, h7, hs]
  · have hlt6 : semverLt v ⟨6, 0, 100⟩ = false := by
      simpa [semverGte] using h6
    simp [listInstalledTemplatesParams, truthyStr, semverGte, hlt6, h7, hs]
  · have hlt7 : semverLt v ⟨7, 0, 100⟩ = false := by
      simpa [semverGte] using h7
    have hlt6 : semverLt v ⟨6, 0, 100⟩ = false := by
      cases hc : semverLt v ⟨6, 0, 100⟩
      · rfl
      · exact absurd (semverLt_6_imp_7 v hc) (by simp [hlt7])
    simp [listInstalledTemplatesParams, truthyStr, semverGte, hlt6, hlt7, hs]

/-- Witness for C2 at the spec's concrete versions: `5.0.100` with search
`web` yields `["new", "web", "--list"]`, `6.0.100` yields
`["new", "--list", "web"]`, `7.0.100` yields `["new", "list", "web"]`. -/
theorem listTemplates_version_branches_wit :
    listInstalledTemplatesParams ⟨5, 0, 100⟩ (some "web") none
      = ["new", "web", "--list"] ∧
    listInstalledTemplatesParams ⟨6, 0, 100⟩ (some "web") none
      = ["new", "--list", "web"] ∧
    listInstalledTemplatesParams ⟨7, 0, 100⟩ (some "web") none
      = ["new", "list", "web"] := by
  refine ⟨(listTemplates_version_branches ⟨5, 0, 100⟩ "web" (by decide)).1 (by decide),
    (listTemplates_version_branches ⟨6, 0, 100⟩ "web" (by decide)).2.1
      (by decide) (by decide),
    (listTemplates_version_branches ⟨7, 0, 100⟩ "web" (by decide)).2.2 (by decide)⟩

/-- C4: a blocking invocation whose process exits with non-zero status
throws the execution error carrying the status (plus the captured stderr
in captured mode); on success the captured mode returns the stdout text
and the inherited mode returns nothing; the non-blocking spawn mode
returns the process handle in every case, without throwing. -/
theorem executor_error_semantics (command : String) (env : EnvMap)
    (params : List String) (res : ProcResult) :
    (res.status ≠ 0 →
      (logAndExecute command env params res).2
        = Except.error (JsError.executionError res.status none) ∧
      (spawnAndGetOutput env params res).2
        = Except.error (JsError.executionError res.status (some res.stderr))) ∧
    (res.status = 0 →
      (logAndExecute command env params res).2 = Except.ok () ∧
      (spawnAndGetOutput env params res).2 = Except.ok res.stdout) ∧
    (logAndSpawn command env params).2 = ⟨command, params⟩ := by
  refine ⟨fun h => ⟨?_, ?_⟩, fun h => ⟨?_, ?_⟩, rfl⟩ <;>
    simp [logAndExecute, spawnAndGetOutput, h]

/-- Witness for C4 at exit status 1. -/
theorem executor_error_semantics_wit :
    (logAndExecute "dotnet" envHome ["build"] ⟨1, "out", "err"⟩).2
      = Except.error (JsError.executionError 1 none) ∧
    (spawnAndGetOutput envHome ["build"] ⟨1, "out", "err"⟩).2
      = Except.error (JsError.executionError 1 (some "err")) ∧
    (logAndSpawn "dotnet" envHome ["build"]).2 = ⟨"dotnet", ["build"]⟩ := by
  have h := executor_error_semantics "dotnet" envHome ["build"] ⟨1, "out", "err"⟩
  exact ⟨(h.1 (by decide)).1, (h.1 (by decide)).2, h.2.2⟩

/-- C6 counterexample: the blocking-captured mode emits no log line
before dispatch, while the blocking-inherited mode does; so the claim
that a log line is emitted in all three modes fails on the captured
mode at this concrete input. -/
theorem captured_mode_unlogged_cex :
    (spawnAndGetOutput envHome ["--version"] ⟨0, "6.0.100", ""⟩).1.logs = [] ∧
    ¬ (logAndExecute "dotnet" envHome ["--version"] ⟨0, "6.0.100", ""⟩).1.logs
        = [] := by decide

/-- C6 amended: a log line showing the full command is emitted before
dispatch in the blocking-inherited and non-blocking spawn modes; the
blocking-captured mode emits none. -/
theorem log_line_by_mode (command : String) (env : EnvMap)
    (params : List String) (res : ProcResult) :
    (logAndExecute command env params res).1.logs
      = [commandLogLine command (substParams env params)] ∧
    (logAndSpawn command env params).1.logs
      = [commandLogLine command params] ∧
    (spawnAndGetOutput env params res).1.logs = [] :=
  ⟨rfl, rfl, rfl⟩

/-- C1 counterexample: on SDK version `6.0.100` with
`{fixWhitespace: false, fixStyle: true}` and `fixAnalyzers` unset, the
format split produces TWO sub-invocations (`style` and `analyzers`),
because the unset `fixAnalyzers` is not explicitly `false`; the claim
that exactly one sub-invocation is produced fails here. -/
theorem format_single_style_cex :
    (format ⟨6, 0, 100⟩ "proj"
        (some { fixWhitespace := some (OptVal.bool false),
                fixStyle := some (OptVal.bool true),
                fixAnalyzers := none, rest := [] }) false).invocations
      = [["format", "style", "proj"], ["format", "analyzers", "proj"]] ∧
    ¬ (format ⟨6, 0, 100⟩ "proj"
        (some { fixWhitespace := some (OptVal.bool false),
                fixStyle := some (OptVal.bool true),
                fixAnalyzers := none, rest := [] }) false).invocations.length
      = 1 := by decide

/-- C1 amended: on SDK major version at least 6 with at least one of the
three legacy flags defined, the number of sub-invocations is the number
of flags not explicitly set to the boolean `false` — so
`{fixWhitespace: false, fixStyle: true}` with `fixAnalyzers` unset yields
exactly two (`style` and `analyzers`), not three and not one. -/
theorem format_subinvocation_count (v : SemVer) (hv : 6 ≤ v.major)
    (project : String) (p : dotnetFormatOptions)
    (hdef : (p.fixWhitespace.isSome || p.fixStyle.isSome
        || p.fixAnalyzers.isSome) = true)
    (force : Bool) :
    (format v project (some p) force).invocations.length =
      (if p.fixWhitespace = some (OptVal.bool false) then 0 else 1)
      + (if p.fixStyle = some (OptVal.bool false) then 0 else 1)
      + (if p.fixAnalyzers = some (OptVal.bool false) then 0 else 1) := by
  have hc : (decide (6 ≤ v.major) &&
      (p.fixWhitespace.isSome || p.fixStyle.isSome || p.fixAnalyzers.isSome))
      = true := by
    simp [hv, hdef]
  simp only [format, hc, if_true]
  split_ifs <;> simp

/-- Witness for the amended C1 at a concrete input with one flag
explicitly disabled. -/
theorem format_subinvocation_count_wit :
    (format ⟨6, 0, 100⟩ "proj"
        (some { fixWhitespace := some (OptVal.bool true),
                fixStyle := some (OptVal.bool false),
                fixAnalyzers := none, rest := [] }) false).invocations.length
      = 2 := by
  have h := format_subinvocation_count ⟨6, 0, 100⟩ (by decide) "proj"
    { fixWhitespace := some (OptVal.bool true),
      fixStyle := some (OptVal.bool false),
      fixAnalyzers := none, rest := [] } (by decide) false
  simpa using h

/-- C9: on the split path (SDK major at least 6, at least one legacy flag
defined) `format` mutates the caller-supplied parameters object, deleting
the `fixWhitespace`, `fixStyle` and `fixAnalyzers` keys while leaving all
its other keys unchanged. -/
theorem format_deletes_legacy_flags (v : SemVer) (hv : 6 ≤ v.major)
    (project : String) (p : dotnetFormatOptions)
    (hdef : (p.fixWhitespace.isSome || p.fixStyle.isSome
        || p.fixAnalyzers.isSome) = true)
    (force : Bool) :
    (format v project (some p) force).callerParams
      = some { fixWhitespace := none, fixStyle := none, fixAnalyzers := none,
               rest := p.rest } := by
  have hc : (decide (6 ≤ v.major) &&
      (p.fixWhitespace.isSome || p.fixStyle.isSome || p.fixAnalyzers.isSome))
      = true := by
    simp [hv, hdef]
  simp [format, hc]

/-- Witness for C9 at a concrete input carrying an unrelated key. -/
theorem format_deletes_legacy_flags_wit :
    (format ⟨7, 0, 100⟩ "proj"
        (some { fixWhitespace := none, fixStyle := some (OptVal.str "warn"),
                fixAnalyzers := none,
                rest := [("verbosity", OptVal.str "diag")] }) true).callerParams
      = some { fixWhitespace := none, fixStyle := none, fixAnalyzers := none,
               rest := [("verbosity", OptVal.str "diag")] } :=
  format_deletes_legacy_flags ⟨7, 0, 100⟩ (by decide) "proj"
    { fixWhitespace := none, fixStyle := some (OptVal.str "warn"),
      fixAnalyzers := none, rest := [("verbosity", OptVal.str "diag")] }
    (by decide) true

/-- C3 counterexample: the non-blocking spawn mode dispatches the token
`$HOME/project` unchanged even though `HOME` is set, while substitution
would produce `/home/user/project`; the claim that all three execution
modes substitute environment variables fails on the spawn mode. -/
theorem spawn_mode_no_subst_cex :
    (logAndSpawn "dotnet" envHome ["$HOME/project"]).1.args
      = ["$HOME/project"] ∧
    substParams envHome ["$HOME/project"] = ["/home/user/project"] ∧
    ¬ (logAndSpawn "dotnet" envHome ["$HOME/project"]).1.args
        = substParams envHome ["$HOME/project"] := by decide

/-- C3 amended: before dispatch the blocking-inherited and
blocking-captured modes replace the first `$NAME` occurrence of each
token with the environment value (tokens with no such pattern pass
through unchanged); the non-blocking spawn mode dispatches the argument
list unsubstituted. -/
theorem env_subst_by_mode (command : String) (env : EnvMap)
    (params : List String) (res : ProcResult) :
    (logAndExecute command env params res).1.args = substParams env params ∧
    (spawnAndGetOutput env params res).1.args = substParams env params ∧
    (logAndSpawn command env params).1.args = params ∧
    (∀ t ∈ params, hasEnvPattern t.data = false → envSubstToken env t = t) := by
  refine ⟨rfl, rfl, rfl, fun t _ ht => ?_⟩
  unfold envSubstToken
  rw [replaceFirstEnvVar_eq_of_no_pattern env t.data ht]

/-- Witness for the amended C3: a token with a pattern and one without. -/
theorem env_subst_by_mode_wit :
    (logAndExecute "dotnet" envHome ["$HOME/project", "build"] ⟨0, "", ""⟩).1.args
      = substParams envHome ["$HOME/project", "build"] ∧
    envSubstToken envHome "build" = "build" := by
  have h := env_subst_by_mode "dotnet" envHome ["$HOME/project", "build"]
    ⟨0, "", ""⟩
  exact ⟨h.1, h.2.2.2 "build" (by simp) (by decide)⟩

/-- C5 counterexample: without the watch flag the run command's
positional prefix is `run --project <project>`, not `run <project>` as
claimed. -/
theorem run_positional_prefix_cex :
    runParams "proj" false none = ["run", "--project", "proj"] ∧
    ¬ (runParams "proj" false none).take 2 = ["run", "proj"] := by decide

/-- C5 amended: with the watch flag the positional prefix is
`watch --project <project> run` (resp. `test`); without it the prefix is
`run --project <project>` for run and `test <project>` for test. -/
theorem run_test_watch_prefixes (project : String) (opts : Option OptionsObj)
    (extra : Option String) (l : List String) :
    (runParams project true opts).take 4
      = ["watch", "--project", project, "run"] ∧
    (runParams project false opts).take 3 = ["run", "--project", project] ∧
    (testParams project true opts extra = Except.ok l →
      l.take 4 = ["watch", "--project", project, "test"]) ∧
    (testParams project false opts extra = Except.ok l →
      l.take 2 = ["test", project]) := by
  refine ⟨rfl, rfl, fun h => ?_, fun h => ?_⟩ <;>
  · cases hstep : spreadMatches extra with
    | error e =>
      unfold testParams at h
      rw [hstep] at h
      exact absurd h (by simp)
    | ok toks =>
      unfold testParams at h
      rw [hstep] at h
      simp only [Except.ok.injEq] at h
      subst h
      rfl

/-- Witness for the amended C5 on concrete inputs. -/
theorem run_test_watch_prefixes_wit :
    (runParams "proj" true none).take 4
      = ["watch", "--project", "proj", "run"] ∧
    (["test", "proj"] : List String).take 2 = ["test", "proj"] := by
  have h := run_test_watch_prefixes "proj" none none ["test", "proj"]
  exact ⟨h.1, h.2.2.2 rfl⟩

/-- C8: every successful publish argument list starts with `publish` and
the double-quoted project path; when a (truthy) publish-profile name is
given, the list is the publish positionals, then the mapped options, then
the raw `-p:PublishProfile=<name>` token, then the tokenized extra
parameters, in that order. -/
theorem publishParams_layout (project : String) (opts : Option OptionsObj)
    (profile : Option String) (extra : Option String) (l : List String)
    (hl : publishParams project opts profile extra = Except.ok l) :
    l.take 2 = ["publish", "\"" ++ project ++ "\""] ∧
    (∀ name ts, profile = some name → name ≠ "" →
      spreadMatches extra = Except.ok ts →
      l = ["publish", "\"" ++ project ++ "\""]
        ++ mappedOptionTokens opts publishKeyMap
        ++ ["-p:PublishProfile=" ++ name] ++ ts) := by
  cases hstep : spreadMatches extra with
  | error e =>
    unfold publishParams at hl
    rw [hstep] at hl
    exact absurd hl (by simp)
  | ok toks =>
    unfold publishParams at hl
    rw [hstep] at hl
    simp only [Except.ok.injEq] at hl
    subst hl
    constructor
    · rfl
    · intro name ts hprof hname hts
      subst hprof
      injection hts with hts
      subst hts
      simp [truthyStr, hname, List.append_assoc]

/-- Witness for C8 at a concrete publish call with a profile and extra
parameters. -/
theorem publishParams_layout_wit :
    (["publish", "\"" ++ "proj" ++ "\"", "-p:PublishProfile=Prod",
        "--no-build"] : List String).take 2
      = ["publish", "\"" ++ "proj" ++ "\""] ∧
    (["publish", "\"" ++ "proj" ++ "\"", "-p:PublishProfile=Prod",
        "--no-build"] : List String)
      = ["publish", "\"" ++ "proj" ++ "\""]
        ++ mappedOptionTokens none publishKeyMap
        ++ ["-p:PublishProfile=" ++ "Prod"] ++ ["--no-build"] := by
  have h := publishParams_layout "proj" none (some "Prod") (some "--no-build")
    ["publish", "\"" ++ "proj" ++ "\"", "-p:PublishProfile=Prod", "--no-build"]
    (by rfl)
  exact ⟨h.1, h.2 "Prod" ["--no-build"] rfl (by decide) (by rfl)⟩

/-- C10: a non-empty whitespace-only extra-parameter string is truthy,
its regex match is `null`, and spreading the `null` match throws a
`TypeError` in every operation taking extra parameters (build, test,
publish, runTool) before any process is dispatched; it is not treated as
an absent extra-parameter string. -/
theorem whitespace_extra_type_error (s : String) (hne : s ≠ "")
    (hws : ∀ c ∈ s.data, jsWhitespaceChar c = true)
    (command : String) (env : EnvMap) (res : ProcResult) :
    jsMatch s = none ∧
    spreadMatches (some s) = Except.error JsError.typeError ∧
    buildParams "proj" none (some s) = Except.error JsError.typeError ∧
    testParams "proj" false none (some s) = Except.error JsError.typeError ∧
    publishParams "proj" none none (some s) = Except.error JsError.typeError ∧
    runToolParams "tool" none none (some s) = Except.error JsError.typeError ∧
    build command env res "proj" none (some s)
      = Except.error JsError.typeError := by
  have hmatch := jsMatch_eq_none_of_ws s hws
  have hspread : spreadMatches (some s) = Except.error JsError.typeError := by
    show (if s = "" then Except.ok []
      else
        match jsMatch s with
        | none => Except.error JsError.typeError
        | some ts => Except.ok ts) = Except.error JsError.typeError
    rw [if_neg hne, hmatch]
  have hbp : buildParams "proj" none (some s)
      = Except.error JsError.typeError := by
    unfold buildParams
    rw [hspread]
  refine ⟨hmatch, hspread, hbp, ?_, ?_, ?_, ?_⟩
  · unfold testParams
    rw [hspread]
  · unfold publishParams
    rw [hspread]
  · unfold runToolParams
    rw [hspread]
  · unfold build
    rw [hbp]

/-- Witness for C10 on the one-space string. -/
theorem whitespace_extra_type_error_wit :
    jsMatch " " = none ∧
    build "dotnet" envHome ⟨0, "", ""⟩ "proj" none (some " ")
      = Except.error JsError.typeError := by
  have h := whitespace_extra_type_error " " (by decide) (by decide)
    "dotnet" envHome ⟨0, "", ""⟩
  exact ⟨h.1, h.2.2.2.2.2.2⟩

end DotnetClient
